import Mathlib

/-!
Shallow embedding of the comment reconciliation and positioning engine of the
pull-request review action (`src/main.ts`): the unified issue model
(`ReviewComment`), the identity computation and reconciliation in
`compareWithPreviousReviews`, the line mapping in `createComment`, the
comment-mode filtering and the pass/fail threshold logic of `main`.

The source file stores its decorative prefix strings in a double-encoded form
(for example the warning prefix is the six characters U+201A U+00F6 U+2020
U+00D4 U+220F U+00E8); the embedding reproduces those exact characters.
-/

namespace PRBot

/-- The three-level severity scale of `ReviewComment.severity`. -/
inductive Severity where
  | critical
  | warning
  | suggestion
deriving DecidableEq

/-- The status vocabulary of the TypeScript `ReviewComment.status` field:
`"active" | "resolved" | "outdated"`. -/
inductive Status where
  | active
  | resolved
  | outdated
deriving DecidableEq

/-- The `ReviewComment.source` tag: `"ai" | "quality-tool"`. -/
inductive Source where
  | ai
  | qualityTool
deriving DecidableEq

/-- The canonical issue record (`interface ReviewComment` at `main.ts:366`):
`body`, `path`, `line`, `severity` are required, `id`, `status`, `source`
are optional. -/
structure ReviewComment where
  body : String
  path : String
  line : Int
  severity : Severity
  id : Option String := none
  status : Option Status := none
  source : Option Source := none
deriving DecidableEq

/-- `interface HistoricalReviewComment extends ReviewComment` with `id` and
`status` made mandatory (`main.ts:376`). -/
structure HistoricalReviewComment where
  body : String
  path : String
  line : Int
  severity : Severity
  id : String
  status : Status
  source : Option Source := none
deriving DecidableEq

/-- `interface HistoricalReview` (`main.ts:381`). -/
structure HistoricalReview where
  id : String
  comment : HistoricalReviewComment
  commitSha : String
  timestamp : String
deriving DecidableEq

/-! ## String machinery: the `.replace(/\[.*?\]/g, "").trim()` normalization

JavaScript `.` does not match line terminators, so `\[.*?\]` removes a
bracketed segment only when the closing bracket occurs before any line
terminator; an unmatched `[` is kept and scanning resumes at the next
character.  `String.prototype.trim` removes whitespace from both ends. -/

/-- JavaScript line terminators (not matched by `.` in a regex). -/
def isLineTerminator (c : Char) : Bool :=
  c = '\n' || c = '\r' || c = '\u2028' || c = '\u2029'

/-- Whitespace removed by `String.prototype.trim` (the characters relevant to
this code base). -/
def isJsSpace (c : Char) : Bool :=
  c = ' ' || c = '\t' || c = '\n' || c = '\r' || c = '\x0b' || c = '\x0c' ||
  c = '\u00A0' || c = '\uFEFF'

/-- Scan for the closing `]` of a lazy `\[.*?\]` match: returns the suffix
after the first `]`, provided no line terminator intervenes. -/
def dropToClose : List Char → Option (List Char)
  | [] => none
  | c :: rest =>
    if c = ']' then some rest
    else if isLineTerminator c then none
    else dropToClose rest

/-- Fuelled worker for `stripBrackets`; the fuel is an upper bound on the
length of the list, so the top-level call never exhausts it. -/
def stripBracketsAux : Nat → List Char → List Char
  | 0, l => l
  | _ + 1, [] => []
  | fuel + 1, c :: rest =>
    if c = '[' then
      match dropToClose rest with
      | some rest2 => stripBracketsAux fuel rest2
      | none => c :: stripBracketsAux fuel rest
    else c :: stripBracketsAux fuel rest

/-- `.replace(/\[.*?\]/g, "")` on a character list. -/
def stripBrackets (l : List Char) : List Char :=
  stripBracketsAux l.length l

/-- `.trim()` on a character list. -/
def trimChars (l : List Char) : List Char :=
  ((l.dropWhile isJsSpace).reverse.dropWhile isJsSpace).reverse

/-- `s.replace(/\[.*?\]/g, "").trim()` — the body normalization used by the
persistence match in `compareWithPreviousReviews` (`main.ts:753`). -/
def stripTrim (s : String) : String :=
  ⟨trimChars (stripBrackets s.data)⟩

/-! ## `Buffer.from(str).toString("base64")` -/

/-- UTF-8 encoding of one character, as byte values. -/
def utf8Bytes (c : Char) : List Nat :=
  let n := c.toNat
  if n < 0x80 then [n]
  else if n < 0x800 then [0xC0 + n / 64, 0x80 + n % 64]
  else if n < 0x10000 then [0xE0 + n / 4096, 0x80 + n / 64 % 64, 0x80 + n % 64]
  else [0xF0 + n / 262144, 0x80 + n / 4096 % 64, 0x80 + n / 64 % 64, 0x80 + n % 64]

/-- UTF-8 encoding of a string (what `Buffer.from` produces). -/
def utf8Encode (s : String) : List Nat :=
  s.data.flatMap utf8Bytes

/-- The standard base64 alphabet. -/
def base64Table : List Char :=
  "ABCDEFGHIJKLMNOPQRSTUVWXYZabcdefghijklmnopqrstuvwxyz0123456789+/".data

/-- Character for a sextet value. -/
def b64char (n : Nat) : Char :=
  base64Table.getD n 'A'

/-- Base64 encoding of a byte list, three bytes at a time, `=`-padded. -/
def base64Chunks : List Nat → List Char
  | [] => []
  | [a] => [b64char (a / 4), b64char (a % 4 * 16), '=', '=']
  | [a, b] => [b64char (a / 4), b64char (a % 4 * 16 + b / 16), b64char (b % 16 * 4), '=']
  | a :: b :: c :: rest =>
    b64char (a / 4) :: b64char (a % 4 * 16 + b / 16) ::
      b64char (b % 16 * 4 + c / 64) :: b64char (c % 64) :: base64Chunks rest

/-- `Buffer.from(s).toString("base64")`. -/
def base64Encode (bytes : List Nat) : String :=
  ⟨base64Chunks bytes⟩

/-- The stable identifier of `compareWithPreviousReviews` (`main.ts:743`):
`Buffer.from(path + ":" + line + ":" + body).toString("base64")`, computed
from the raw body. -/
def computeId (c : ReviewComment) : String :=
  base64Encode (utf8Encode (c.path ++ ":" ++ toString c.line ++ ":" ++ c.body))

/-- The identifier as §4.3 of the specification words it: strip the body
first, then concatenate and base64-encode.  Defined only to be compared with
`computeId`, which is translated from the source. -/
def specIdOf (c : ReviewComment) : String :=
  base64Encode (utf8Encode (c.path ++ ":" ++ toString c.line ++ ":" ++ stripTrim c.body))

/-! ## JavaScript numbers, as far as `createComment` needs them

`createComment` applies `Number(...)` to the `lineNumber` string of an AI
finding and then only compares the result with integers (`===`,
`Math.abs(a - b) <`) or interpolates it into a template string.  `JsNum`
models such a value: either `NaN` or a rational.  `NaN` compares false under
`===` and `<`, and propagates through subtraction and `Math.abs`. -/

inductive JsNum where
  | nan
  | num (q : ℚ)
deriving DecidableEq

/-- `ln === n` for an integer `ln` from the diff and a parsed number `n`
(`NaN === x` is false in JavaScript). -/
def jsNumEq (ln : Int) (n : JsNum) : Bool :=
  match n with
  | .nan => false
  | .num q => (ln : ℚ) == q

/-- `Math.abs(x - n)` for an integer `x` and a parsed number `n`. -/
def jsDist (x : Int) (n : JsNum) : JsNum :=
  match n with
  | .nan => .nan
  | .num q => .num |(x : ℚ) - q|

/-- `a < b` on JavaScript numbers: false whenever either side is `NaN`. -/
def jsLt : JsNum → JsNum → Bool
  | .num a, .num b => a < b
  | _, _ => false

/-- Template-string rendering: `NaN` prints as `"NaN"`, an integral value as
its integer numeral.  (Only `NaN` and integral values are interpolated by the
program on its reachable inputs.) -/
def jsRender : JsNum → String
  | .nan => "NaN"
  | .num q => if q.den = 1 then toString q.num else toString q

/-- Decimal digit test. -/
def isDigitChar (c : Char) : Bool :=
  '0' ≤ c && c ≤ '9'

/-- Value of a digit string. -/
def digitsVal (l : List Char) : Nat :=
  l.foldl (fun a c => 10 * a + (c.toNat - '0'.toNat)) 0

/-- Parse an unsigned decimal numeral `digits[.digits]` or `.digits`,
requiring the whole input to be consumed. -/
def parseUnsigned (l : List Char) : Option ℚ :=
  let ds1 := l.takeWhile isDigitChar
  let rest1 := l.dropWhile isDigitChar
  match rest1 with
  | [] => if ds1.isEmpty then none else some (digitsVal ds1 : ℚ)
  | '.' :: rest2 =>
    let ds2 := rest2.takeWhile isDigitChar
    let rest3 := rest2.dropWhile isDigitChar
    if rest3.isEmpty && !(ds1.isEmpty && ds2.isEmpty) then
      some ((digitsVal ds1 : ℚ) + (digitsVal ds2 : ℚ) / (10 ^ ds2.length : ℚ))
    else none
  | _ => none

/-- `Number(s)` on the strings this program can meet: whitespace-trimmed
empty string is `0`, an optionally signed decimal numeral parses to its
value, anything else is `NaN`.  (Hexadecimal, exponent and `Infinity` forms
are outside the modelled domain.) -/
def jsToNumber (s : String) : JsNum :=
  match trimChars s.data with
  | [] => .num 0
  | '+' :: rest =>
    match parseUnsigned rest with
    | some q => .num q
    | none => .nan
  | '-' :: rest =>
    match parseUnsigned rest with
    | some q => .num (-q)
    | none => .nan
  | l =>
    match parseUnsigned l with
    | some q => .num q
    | none => .nan

/-! ## The diff model and `createComment` (`main.ts:500`) -/

/-- One entry of `chunk.changes` from `parse-diff`: an addition carries its
new line number `ln`, a normal (context) line carries `ln1`/`ln2`, a
deletion carries its old line number. -/
inductive Change where
  | add (ln : Int)
  | del (ln : Int)
  | normal (ln1 ln2 : Int)
deriving DecidableEq

/-- A diff hunk, reduced to the `changes` list that `createComment` reads. -/
structure Chunk where
  changes : List Change
deriving DecidableEq

/-- A diff file entry, reduced to the `to` field that `createComment` reads
(`file.«to»` may be absent). -/
structure File where
  «to» : Option String := none
deriving DecidableEq

/-- One element of the AI response array consumed by `createComment`
(`lineNumber` is a string in the wire format). -/
structure AIResponseItem where
  lineNumber : String
  reviewComment : String
  severity : Option Severity := none
deriving DecidableEq

/-- One step of the `isLineInDiff` membership test (`main.ts:518`):
`change.ln === lineNum` for additions, `change.ln2 === lineNum` for normal
lines, false for deletions. -/
def changeMatches (n : JsNum) : Change → Bool
  | .add ln => jsNumEq ln n
  | .normal _ ln2 => jsNumEq ln2 n
  | .del _ => false

/-- The line number a change contributes to `changedLines` (`main.ts:530`):
`ln` for additions, `ln2` for normal lines, nothing for deletions. -/
def changeLine? : Change → Option Int
  | .add ln => some ln
  | .normal _ ln2 => some ln2
  | .del _ => none

/-- The unsorted list of addition/context line numbers of a hunk. -/
def diffLines (chunk : Chunk) : List Int :=
  chunk.changes.filterMap changeLine?

/-- `changedLines` after `.sort((a, b) => a - b)`: the ascending reordering
of `diffLines` (computed here by insertion sort, which produces the same
ascending list). -/
def sortedDiffLines (chunk : Chunk) : List Int :=
  (diffLines chunk).insertionSort (· ≤ ·)

/-- `changedLines.reduce((prev, curr) => Math.abs(curr - lineNum) <
Math.abs(prev - lineNum) ? curr : prev)` (`main.ts:545`), with the first
element as the initial accumulator, as `reduce` without a seed behaves. -/
def closestTo (n : JsNum) (x : Int) (xs : List Int) : Int :=
  xs.foldl (fun prev curr => if jsLt (jsDist curr n) (jsDist prev n) then curr else prev) x

/-- JavaScript falsiness of `file.«to»` (`!file.«to»`): absent or empty. -/
def jsStrFalsy : Option String → Bool
  | none => true
  | some s => s == ""

/-- `createComment` (`main.ts:500`): for each AI finding, keep the reported
line if it is in the diff, otherwise anchor to the closest changed line and
prefix the body with a note naming the original reported value; drop the
finding if the hunk has no usable lines (or the file has no `to` path).
The in-diff branch of the source uses `lineNum` itself as the comment line;
since it `===`-matched a change's line number, that integer is used here. -/
def createComment (file : File) (chunk : Chunk) (aiResponses : List AIResponseItem) :
    List ReviewComment :=
  aiResponses.flatMap fun r =>
    if jsStrFalsy file.«to» then []
    else
      let pathTo := file.«to».getD ""
      let lineNum := jsToNumber r.lineNumber
      match chunk.changes.findSome? (fun ch => if changeMatches lineNum ch then changeLine? ch else none) with
      | some ln =>
        [{ body := r.reviewComment, path := pathTo, line := ln,
           severity := r.severity.getD .warning }]
      | none =>
        match sortedDiffLines chunk with
        | [] => []
        | x :: xs =>
          [{ body := "[Original comment was for line " ++ jsRender lineNum ++ "]\n" ++ r.reviewComment,
             path := pathTo, line := closestTo lineNum x xs,
             severity := r.severity.getD .warning }]

/-! ## The reconciler: `compareWithPreviousReviews` (`main.ts:734`) -/

/-- The warning prefix as stored in the source file (six characters,
a double-encoded warning sign). -/
def warnEmoji : String := "‚ö†Ô∏è"

/-- The check-mark prefix as stored in the source file. -/
def checkEmoji : String := "‚úÖ"

/-- The cross prefix as stored in the source file. -/
def crossEmoji : String := "‚ùå"

/-- The bulb prefix as stored in the source file. -/
def bulbEmoji : String := "üí°"

/-- The advisory appended to a matched issue's body (`main.ts:759`). -/
def advisoryText : String :=
  "\n\n" ++ warnEmoji ++ " This issue was previously reported and still needs to be addressed."

/-- The hidden tracking marker prepended to every processed body
(`main.ts:763`). -/
def trackingMarker (id sha : String) : String :=
  "<!--review-id:" ++ id ++ ",commit:" ++ sha ++ "-->\n"

/-- The persistence match (`main.ts:749`): exact path, line within 3, and
equal `replace(/\[.*?\]/g, "").trim()`-normalized bodies. -/
def matchesPrevious (c : ReviewComment) (hr : HistoricalReview) : Bool :=
  hr.comment.path == c.path &&
  decide ((hr.comment.line - c.line).natAbs ≤ 3) &&
  stripTrim hr.comment.body == stripTrim c.body

/-- The loop body of `compareWithPreviousReviews` (`main.ts:741`): assign the
computed id, append the advisory when a historical match exists, then
prepend the tracking marker.  The source performs these as in-place
mutations of the input record; the returned record is that record's state
after the iteration. -/
def processNewComment (historicalReviews : List HistoricalReview) (currentCommitSha : String)
    (c : ReviewComment) : ReviewComment :=
  let commentId := computeId c
  let body1 :=
    match historicalReviews.find? (matchesPrevious c) with
    | some _ => c.body ++ advisoryText
    | none => c.body
  { c with id := some commentId, body := trackingMarker commentId currentCommitSha ++ body1 }

/-- The synthetic resolved issue built from an unmatched historical record
(`main.ts:770`): the historical snapshot spread, with the resolution prefix
and `status: "resolved"`. -/
def toResolvedComment (hr : HistoricalReview) : ReviewComment :=
  { body := checkEmoji ++ " RESOLVED: " ++ hr.comment.body,
    path := hr.comment.path, line := hr.comment.line, severity := hr.comment.severity,
    id := some hr.comment.id, status := some .resolved, source := hr.comment.source }

/-- `compareWithPreviousReviews` (`main.ts:734`): process every new comment,
then append a resolved issue for every historical record whose id no
processed comment carries. -/
def compareWithPreviousReviews (newComments : List ReviewComment)
    (historicalReviews : List HistoricalReview) (currentCommitSha : String) :
    List ReviewComment :=
  let processedComments := newComments.map (processNewComment historicalReviews currentCommitSha)
  let resolvedComments :=
    (historicalReviews.filter
      (fun hr => !(processedComments.any (fun pc => pc.id == some hr.comment.id)))).map
      toResolvedComment
  processedComments ++ resolvedComments

/-- The caller-visible state of the `newComments` array after
`compareWithPreviousReviews` returns: the loop mutates each input record in
place (`newComment.id = ...`, `newComment.body = ...`) and pushes the same
object reference into `processedComments`, so after the call the input array
holds the processed records. -/
def inputStateAfter (newComments : List ReviewComment)
    (historicalReviews : List HistoricalReview) (currentCommitSha : String) :
    List ReviewComment :=
  newComments.map (processNewComment historicalReviews currentCommitSha)

/-- Wrap a first-run output comment as a `HistoricalReview`, the way C6's
"using the first run's output as the historical records" requires: the
embedded fields are taken as they stand (absent id as `""`, absent status as
`active`, the run's commit as `commitSha`). -/
def historify (sha : String) (c : ReviewComment) : HistoricalReview :=
  { id := c.id.getD "", commitSha := sha, timestamp := "",
    comment := { body := c.body, path := c.path, line := c.line, severity := c.severity,
                 id := c.id.getD "", status := c.status.getD .active, source := c.source } }

/-! ## Comment-mode filtering and the pass/fail verdict (`main.ts:921`, `main.ts:952`) -/

/-- The `comment_mode` filter (`main.ts:925`): `"new"` keeps comments whose
id matches no historical record's id, `"unresolved"` keeps comments whose
status is not `resolved`, anything else (including `"all"`) keeps
everything. -/
def filterByCommentMode (commentMode : String) (comments : List ReviewComment)
    (historicalReviews : List HistoricalReview) : List ReviewComment :=
  if commentMode == "new" then
    comments.filter (fun c => !(historicalReviews.any (fun hr => c.id == some hr.comment.id)))
  else if commentMode == "unresolved" then
    comments.filter (fun c => !(c.status == some .resolved))
  else
    comments

/-- The per-severity count of non-resolved issues (`main.ts:952`). -/
def countNonResolved (comments : List ReviewComment) (sev : Severity) : Nat :=
  (comments.filter (fun c => c.severity == sev && !(c.status == some .resolved))).length

/-- The failure message of the critical tier (`main.ts:983`). -/
def criticalFailureMessage (n : Nat) (t : Int) : String :=
  crossEmoji ++ " Found " ++ toString n ++ " critical issue" ++ (if n > 1 then "s" else "") ++
    " (threshold: " ++ toString t ++ ")."

/-- The failure message of the warning tier (`main.ts:988`). -/
def warningFailureMessage (n : Nat) (t : Int) : String :=
  warnEmoji ++ " Found " ++ toString n ++ " warning" ++ (if n > 1 then "s" else "") ++
    " (threshold: " ++ toString t ++ ")."

/-- The failure message of the suggestion tier (`main.ts:993`). -/
def suggestionFailureMessage (n : Nat) (t : Int) : String :=
  bulbEmoji ++ " Found " ++ toString n ++ " suggestion" ++ (if n > 1 then "s" else "") ++
    " (threshold: " ++ toString t ++ ")."

/-- The failure message of the quality-issues clause (`main.ts:998`). -/
def qualityFailureMessage (n : Nat) : String :=
  warnEmoji ++ " Found " ++ toString n ++ " quality issue" ++ (if n > 1 then "s" else "") ++
    " that should be addressed."

/-- The threshold check of `main` (`main.ts:978`): the first violated clause,
in the order critical, warning, suggestion, quality, produces the failure
message; `none` means the review passes.  A negative threshold disables its
clause (`maxX >= 0 && count > maxX`). -/
def policyVerdict (comments : List ReviewComment) (maxCritical maxWarning maxSuggestion : Int)
    (failOnQualityIssues : Bool) (qualityIssuesCount : Nat) : Option String :=
  let criticalIssues := countNonResolved comments .critical
  let warnings := countNonResolved comments .warning
  let suggestions := countNonResolved comments .suggestion
  if maxCritical ≥ 0 ∧ (criticalIssues : Int) > maxCritical then
    some (criticalFailureMessage criticalIssues maxCritical)
  else if maxWarning ≥ 0 ∧ (warnings : Int) > maxWarning then
    some (warningFailureMessage warnings maxWarning)
  else if maxSuggestion ≥ 0 ∧ (suggestions : Int) > maxSuggestion then
    some (suggestionFailureMessage suggestions maxSuggestion)
  else if failOnQualityIssues ∧ qualityIssuesCount > 0 then
    some (qualityFailureMessage qualityIssuesCount)
  else
    none

/-- Substring test used to state that a failure reason names a tier. -/
def strContains (s sub : String) : Bool :=
  (List.range (s.data.length + 1)).any fun i => sub.data.isPrefixOf (s.data.drop i)

/-! ## Helper lemmas about the reconciler  -/

theorem processNewComment_status (hist : List HistoricalReview) (sha : String)
    (c : ReviewComment) : (processNewComment hist sha c).status = c.status := rfl

theorem processNewComment_path (hist : List HistoricalReview) (sha : String)
    (c : ReviewComment) : (processNewComment hist sha c).path = c.path := rfl

theorem processNewComment_line (hist : List HistoricalReview) (sha : String)
    (c : ReviewComment) : (processNewComment hist sha c).line = c.line := rfl

theorem processNewComment_severity (hist : List HistoricalReview) (sha : String)
    (c : ReviewComment) : (processNewComment hist sha c).severity = c.severity := rfl

theorem processNewComment_source (hist : List HistoricalReview) (sha : String)
    (c : ReviewComment) : (processNewComment hist sha c).source = c.source := rfl

theorem processNewComment_id (hist : List HistoricalReview) (sha : String)
    (c : ReviewComment) : (processNewComment hist sha c).id = some (computeId c) := rfl

theorem processNewComment_body_of_find?_eq_some {hist : List HistoricalReview} {sha : String}
    {c : ReviewComment} {hr : HistoricalReview} (h : hist.find? (matchesPrevious c) = some hr) :
    (processNewComment hist sha c).body =
      trackingMarker (computeId c) sha ++ (c.body ++ advisoryText) := by
  unfold processNewComment
  rw [h]

theorem processNewComment_body_of_find?_eq_none {hist : List HistoricalReview} {sha : String}
    {c : ReviewComment} (h : hist.find? (matchesPrevious c) = none) :
    (processNewComment hist sha c).body = trackingMarker (computeId c) sha ++ c.body := by
  unfold processNewComment
  rw [h]

theorem compareWithPreviousReviews_eq (cur : List ReviewComment)
    (hist : List HistoricalReview) (sha : String) :
    compareWithPreviousReviews cur hist sha =
      cur.map (processNewComment hist sha) ++
        (hist.filter
          (fun hr => !((cur.map (processNewComment hist sha)).any
            (fun pc => pc.id == some hr.comment.id)))).map toResolvedComment := rfl

/-! ## C1 — identity of an issue -/

/-- C1 counterexample: two issues with the same path and line whose bodies are
textually equivalent after stripping the severity tag receive different
identifiers, and the identifier is not the base64 of the stripped
concatenation: `computeId` uses the raw body. -/
theorem c1_counterexample :
    stripTrim "[WARNING] x" = stripTrim "x" ∧
    computeId {body := "[WARNING] x", path := "a.py", line := 10, severity := .warning} ≠
      computeId {body := "x", path := "a.py", line := 10, severity := .warning} ∧
    computeId {body := "[WARNING] x", path := "a.py", line := 10, severity := .warning} ≠
      specIdOf {body := "[WARNING] x", path := "a.py", line := 10, severity := .warning} := by
  decide

/-- C1 (amended): the identifier is a pure function of the raw
`(path, line, body)` triple — it is the base64 encoding of the UTF-8 bytes of
`path`, `line` and the unstripped body joined by `":"`; no stripping is
applied before encoding. -/
theorem c1_amended (c₁ c₂ : ReviewComment) (hpath : c₁.path = c₂.path)
    (hline : c₁.line = c₂.line) (hbody : c₁.body = c₂.body) :
    computeId c₁ = computeId c₂ ∧
    computeId c₁ =
      base64Encode (utf8Encode (c₁.path ++ ":" ++ toString c₁.line ++ ":" ++ c₁.body)) := by
  refine ⟨?_, rfl⟩
  unfold computeId
  rw [hpath, hline, hbody]

/-- Witness for `c1_amended` at issues differing only in severity. -/
theorem c1_amended_witness :
    computeId {body := "x", path := "a", line := 1, severity := .warning} =
      computeId {body := "x", path := "a", line := 1, severity := .critical} ∧
    computeId {body := "x", path := "a", line := 1, severity := .warning} =
      base64Encode (utf8Encode ("a" ++ ":" ++ toString (1 : Int) ++ ":" ++ "x")) :=
  c1_amended
    {body := "x", path := "a", line := 1, severity := .warning}
    {body := "x", path := "a", line := 1, severity := .critical} rfl rfl rfl

/-! ## C2 — statuses in the reconciler output -/

/-- C2 counterexample: an ordinary current issue passes through the
reconciler with no status at all — the output does not give every issue a
non-empty status. -/
theorem c2_counterexample :
    ¬ ∀ c ∈ compareWithPreviousReviews
        [{body := "unused import", path := "a.py", line := 10, severity := .warning}] [] "sha1",
      c.status ≠ none := by
  decide

/-- C2 (amended): an output issue either keeps the (possibly absent) status
of the current-run issue it was built from, or is a synthetic resolved issue
with status `resolved`; the reconciler never assigns `new` or `persistent`
(those strings are not even part of the status vocabulary). -/
theorem c2_amended (cur : List ReviewComment) (hist : List HistoricalReview) (sha : String) :
    ∀ c ∈ compareWithPreviousReviews cur hist sha,
      (∃ c₀ ∈ cur, c.status = c₀.status) ∨ c.status = some .resolved := by
  intro c hc
  rw [compareWithPreviousReviews_eq] at hc
  rcases List.mem_append.mp hc with h | h
  · rcases List.mem_map.mp h with ⟨c₀, hc₀, rfl⟩
    exact Or.inl ⟨c₀, hc₀, processNewComment_status ..⟩
  · rcases List.mem_map.mp h with ⟨hr, _, rfl⟩
    exact Or.inr rfl

/-- Witness for `c2_amended`. -/
theorem c2_amended_witness :
    (∃ c₀ ∈ [({body := "b", path := "p", line := 1, severity := .warning} : ReviewComment)],
        (processNewComment [] "s" {body := "b", path := "p", line := 1, severity := .warning}).status
          = c₀.status) ∨
      (processNewComment [] "s" {body := "b", path := "p", line := 1, severity := .warning}).status
        = some .resolved :=
  c2_amended [{body := "b", path := "p", line := 1, severity := .warning}] [] "s" _ (by decide)

/-! ## C9 — the reconciler mutates its input records -/

/-- C9 counterexample: after the call, the record in the input list no longer
has its original body and id — the loop assigned `newComment.id` and
rewrote `newComment.body` in place. -/
theorem c9_counterexample :
    ¬ ∀ c ∈ inputStateAfter [{body := "b", path := "p", line := 1, severity := .warning}] [] "sha1",
        c.body = "b" ∧ c.id = none := by
  decide

/-- C9 (amended): the reconciler mutates every record of its input list in
place — after the call the record carries `id = some (computeId c)` and its
body is the tracking marker followed by the original body (with the advisory
appended when a historical match existed); path, line, severity, status and
source are untouched.  The mutated records are exactly the leading block of
the returned list (the output aliases the inputs). -/
theorem c9_amended (cur : List ReviewComment) (hist : List HistoricalReview) (sha : String) :
    (compareWithPreviousReviews cur hist sha).take cur.length = inputStateAfter cur hist sha ∧
    ∀ c ∈ cur,
      processNewComment hist sha c ∈ inputStateAfter cur hist sha ∧
      (processNewComment hist sha c).id = some (computeId c) ∧
      (∃ t, (processNewComment hist sha c).body = trackingMarker (computeId c) sha ++ t ∧
        (t = c.body ∨ t = c.body ++ advisoryText)) ∧
      (processNewComment hist sha c).path = c.path ∧
      (processNewComment hist sha c).line = c.line ∧
      (processNewComment hist sha c).severity = c.severity ∧
      (processNewComment hist sha c).status = c.status := by
  constructor
  · rw [compareWithPreviousReviews_eq, inputStateAfter]
    have h := List.take_left (cur.map (processNewComment hist sha))
      ((hist.filter
        (fun hr => !((cur.map (processNewComment hist sha)).any
          (fun pc => pc.id == some hr.comment.id)))).map toResolvedComment)
    rwa [List.length_map] at h
  · intro c hc
    refine ⟨List.mem_map.mpr ⟨c, hc, rfl⟩, rfl, ?_, rfl, rfl, rfl, rfl⟩
    cases h : hist.find? (matchesPrevious c) with
    | none => exact ⟨c.body, processNewComment_body_of_find?_eq_none h, Or.inl rfl⟩
    | some hr =>
      exact ⟨c.body ++ advisoryText, processNewComment_body_of_find?_eq_some h, Or.inr rfl⟩

theorem find?_ne_none_iff {α : Type _} {p : α → Bool} {l : List α} :
    l.find? p ≠ none ↔ ∃ x ∈ l, p x = true := by
  rw [Ne, List.find?_eq_none]
  push_neg
  simp

theorem some_beq_some {a b : String} : ((some a : Option String) == some b) = (a == b) := rfl

/-! ## C3 — the persistence match -/

set_option maxRecDepth 8192 in
/-- C3 counterexample: a current issue matched by a historical record (same
path, line within 3, equal stripped bodies) does get the advisory appended,
but its status is not set to `persistent` — it is left absent. -/
theorem c3_counterexample :
    matchesPrevious {body := "dup", path := "a.py", line := 12, severity := .warning}
      { id := "X", commitSha := "c0", timestamp := "t",
        comment := { body := "dup", path := "a.py", line := 10, severity := .warning,
                     id := computeId {body := "dup", path := "a.py", line := 12, severity := .warning},
                     status := .active } } = true ∧
    (compareWithPreviousReviews
        [{body := "dup", path := "a.py", line := 12, severity := .warning}]
        [{ id := "X", commitSha := "c0", timestamp := "t",
           comment := { body := "dup", path := "a.py", line := 10, severity := .warning,
                        id := computeId {body := "dup", path := "a.py", line := 12, severity := .warning},
                        status := .active } }]
        "s").map (fun c => (c.status, strContains c.body advisoryText)) = [(none, true)] := by
  decide

/-- C3 (amended): a current issue receives the appended advisory exactly when
some historical record matches it — same path, line within 3, and equal
stripped bodies — but neither a matched nor an unmatched issue is given a
status: the status field stays exactly as it was on the input. -/
theorem c3_amended (hist : List HistoricalReview) (sha : String) (c : ReviewComment) :
    (∀ hr, matchesPrevious c hr = true ↔
      (hr.comment.path = c.path ∧ (hr.comment.line - c.line).natAbs ≤ 3 ∧
        stripTrim hr.comment.body = stripTrim c.body)) ∧
    (processNewComment hist sha c).status = c.status ∧
    ((∃ hr ∈ hist, matchesPrevious c hr = true) ↔
      (processNewComment hist sha c).body =
        trackingMarker (computeId c) sha ++ (c.body ++ advisoryText)) ∧
    (¬ (∃ hr ∈ hist, matchesPrevious c hr = true) →
      (processNewComment hist sha c).body = trackingMarker (computeId c) sha ++ c.body) := by
  have hchar : ∀ hr, matchesPrevious c hr = true ↔
      (hr.comment.path = c.path ∧ (hr.comment.line - c.line).natAbs ≤ 3 ∧
        stripTrim hr.comment.body = stripTrim c.body) := by
    intro hr
    unfold matchesPrevious
    simp [Bool.and_eq_true, beq_iff_eq, and_assoc]
  refine ⟨hchar, processNewComment_status .., ?_, ?_⟩
  · constructor
    · intro hex
      cases h : hist.find? (matchesPrevious c) with
      | none => exact absurd h (find?_ne_none_iff.mpr hex)
      | some hr => exact processNewComment_body_of_find?_eq_some h
    · intro hbody
      cases h : hist.find? (matchesPrevious c) with
      | some hr => exact ⟨hr, List.mem_of_find?_eq_some h, List.find?_some h⟩
      | none =>
        rw [processNewComment_body_of_find?_eq_none h] at hbody
        have hlen := congrArg String.length hbody
        rw [String.length_append, String.length_append, String.length_append] at hlen
        have : 0 < advisoryText.length := by decide
        omega
  · intro hnone
    cases h : hist.find? (matchesPrevious c) with
    | some hr => exact absurd ⟨hr, List.mem_of_find?_eq_some h, List.find?_some h⟩ hnone
    | none => exact processNewComment_body_of_find?_eq_none h

/-- Witness for `c3_amended` at a concrete matching pair. -/
theorem c3_amended_witness :
    (processNewComment
        [{ id := "X", commitSha := "c0", timestamp := "t",
           comment := { body := "dup", path := "a.py", line := 10, severity := .warning,
                        id := "X", status := .active } }]
        "s" {body := "dup", path := "a.py", line := 12, severity := .warning}).body =
      trackingMarker (computeId {body := "dup", path := "a.py", line := 12, severity := .warning}) "s" ++
        ("dup" ++ advisoryText) :=
  (c3_amended
      [{ id := "X", commitSha := "c0", timestamp := "t",
         comment := { body := "dup", path := "a.py", line := 10, severity := .warning,
                      id := "X", status := .active } }]
      "s" {body := "dup", path := "a.py", line := 12, severity := .warning}).2.2.1.mp
    ⟨_, List.mem_singleton_self _, by decide⟩

/-! ## C4 — resolution completeness -/

/-- C4: the resolved issues in the reconciler's output are exactly one per
historical record whose id no current issue's identifier matches, each
carrying the historical path, line and severity and the `RESOLVED`-prefixed
historical body.  The hypothesis that current-run issues do not arrive
already marked `resolved` holds for everything the pipeline feeds in
(`createComment` and the quality-comment conversion set no status). -/
theorem c4_resolution_completeness (cur : List ReviewComment) (hist : List HistoricalReview)
    (sha : String) (hcur : ∀ c ∈ cur, c.status ≠ some Status.resolved) :
    (compareWithPreviousReviews cur hist sha).filter (fun c => c.status == some Status.resolved) =
      (hist.filter (fun hr => !(cur.any (fun c => computeId c == hr.comment.id)))).map
        toResolvedComment ∧
    ∀ hr ∈ hist, ¬ (∃ c ∈ cur, computeId c = hr.comment.id) →
      toResolvedComment hr ∈ compareWithPreviousReviews cur hist sha ∧
      (toResolvedComment hr).body = checkEmoji ++ " RESOLVED: " ++ hr.comment.body ∧
      (toResolvedComment hr).path = hr.comment.path ∧
      (toResolvedComment hr).line = hr.comment.line ∧
      (toResolvedComment hr).severity = hr.comment.severity ∧
      (toResolvedComment hr).status = some Status.resolved := by
  have hpred : ∀ hr : HistoricalReview,
      (!((cur.map (processNewComment hist sha)).any (fun pc => pc.id == some hr.comment.id))) =
        (!(cur.any (fun c => computeId c == hr.comment.id))) := by
    intro hr
    rw [List.any_map]
    rfl
  constructor
  · rw [compareWithPreviousReviews_eq, List.filter_append]
    have h1 : (cur.map (processNewComment hist sha)).filter
        (fun c => c.status == some Status.resolved) = [] := by
      rw [List.filter_eq_nil_iff]
      intro pc hpc
      rcases List.mem_map.mp hpc with ⟨c₀, hc₀, rfl⟩
      rw [processNewComment_status]
      exact fun hb => hcur c₀ hc₀ (beq_iff_eq.mp hb)
    have h2 : ((hist.filter
        (fun hr => !((cur.map (processNewComment hist sha)).any
          (fun pc => pc.id == some hr.comment.id)))).map toResolvedComment).filter
        (fun c => c.status == some Status.resolved) =
        (hist.filter
          (fun hr => !((cur.map (processNewComment hist sha)).any
            (fun pc => pc.id == some hr.comment.id)))).map toResolvedComment := by
      rw [List.filter_eq_self]
      intro a ha
      rcases List.mem_map.mp ha with ⟨hr, _, rfl⟩
      rfl
    rw [h1, h2, List.nil_append]
    exact congrArg (List.map toResolvedComment) (List.filter_congr fun hr _ => hpred hr)
  · intro hr hhr hnc
    refine ⟨?_, rfl, rfl, rfl, rfl, rfl⟩
    rw [compareWithPreviousReviews_eq]
    refine List.mem_append_right _ (List.mem_map.mpr ⟨hr, List.mem_filter.mpr ⟨hhr, ?_⟩, rfl⟩)
    rw [hpred hr, Bool.not_eq_eq_eq_not, Bool.not_true, List.any_eq_false]
    intro c hc
    exact fun hb => hnc ⟨c, hc, beq_iff_eq.mp hb⟩

/-- Witness for `c4_resolution_completeness` at a run that resolves one
record. -/
theorem c4_witness :
    ((compareWithPreviousReviews
        [{body := "fresh", path := "c.py", line := 3, severity := .warning}]
        [{ id := "Y", commitSha := "c0", timestamp := "t",
           comment := { body := "gone", path := "b.py", line := 2, severity := .critical,
                        id := "Y", status := .active } }]
        "s").filter (fun c => c.status == some Status.resolved) =
      ([{ id := "Y", commitSha := "c0", timestamp := "t",
          comment := { body := "gone", path := "b.py", line := 2, severity := .critical,
                       id := "Y", status := .active } }].filter
        (fun hr => !([({body := "fresh", path := "c.py", line := 3, severity := .warning} :
            ReviewComment)].any (fun c => computeId c == hr.comment.id)))).map
        toResolvedComment) :=
  (c4_resolution_completeness
    [{body := "fresh", path := "c.py", line := 3, severity := .warning}]
    [{ id := "Y", commitSha := "c0", timestamp := "t",
       comment := { body := "gone", path := "b.py", line := 2, severity := .critical,
                    id := "Y", status := .active } }]
    "s" (by decide)).1

/-! ## Helper lemmas about the nearest-line fold -/

theorem foldMin_mem (d : Int → ℚ) (x : Int) (xs : List Int) :
    xs.foldl (fun prev curr => if d curr < d prev then curr else prev) x ∈ x :: xs := by
  induction xs generalizing x with
  | nil => exact List.mem_cons_self x []
  | cons y ys ih =>
    rw [List.foldl_cons]
    by_cases h : d y < d x
    · rw [if_pos h]
      exact List.mem_cons_of_mem x (ih y)
    · rw [if_neg h]
      rcases List.mem_cons.mp (ih x) with h1 | h1
      · rw [h1]
        exact List.mem_cons_self ..
      · exact List.mem_cons_of_mem _ (List.mem_cons_of_mem _ h1)

theorem foldMin_le (d : Int → ℚ) (x : Int) (xs : List Int) :
    ∀ y ∈ x :: xs,
      d (xs.foldl (fun prev curr => if d curr < d prev then curr else prev) x) ≤ d y := by
  induction xs generalizing x with
  | nil =>
    intro y hy
    rcases List.mem_cons.mp hy with h | h
    · subst h
      exact le_refl _
    · exact absurd h (List.not_mem_nil y)
  | cons z zs ih =>
    intro y hy
    rw [List.foldl_cons]
    have hstep_le_x : d (if d z < d x then z else x) ≤ d x := by
      by_cases h : d z < d x
      · rw [if_pos h]; exact le_of_lt h
      · rw [if_neg h]
    have hstep_le_z : d (if d z < d x then z else x) ≤ d z := by
      by_cases h : d z < d x
      · rw [if_pos h]
      · rw [if_neg h]; exact not_lt.mp h
    have hhead := ih (if d z < d x then z else x) _ (List.mem_cons_self ..)
    rcases List.mem_cons.mp hy with h1 | h1
    · subst h1
      exact le_trans hhead hstep_le_x
    · rcases List.mem_cons.mp h1 with h2 | h2
      · subst h2
        exact le_trans hhead hstep_le_z
      · exact ih _ y (List.mem_cons_of_mem _ h2)

theorem foldMin_first (d : Int → ℚ) (x : Int) (xs : List Int) :
    xs.foldl (fun prev curr => if d curr < d prev then curr else prev) x = x ∨
      (xs.foldl (fun prev curr => if d curr < d prev then curr else prev) x ∈ xs ∧
        d (xs.foldl (fun prev curr => if d curr < d prev then curr else prev) x) < d x) := by
  induction xs generalizing x with
  | nil => left; rfl
  | cons z zs ih =>
    rw [List.foldl_cons]
    by_cases h : d z < d x
    · rw [if_pos h]
      rcases ih z with h1 | ⟨h1, h2⟩
      · right
        refine ⟨?_, ?_⟩
        · rw [h1]; exact List.mem_cons_self ..
        · rw [h1]; exact h
      · right
        exact ⟨List.mem_cons_of_mem _ h1, lt_trans h2 h⟩
    · rw [if_neg h]
      rcases ih x with h1 | ⟨h1, h2⟩
      · left; exact h1
      · right; exact ⟨List.mem_cons_of_mem _ h1, h2⟩

theorem foldMin_tie (d : Int → ℚ) : ∀ (xs : List Int) (x : Int),
    List.Sorted (· ≤ ·) (x :: xs) →
    ∀ y ∈ x :: xs,
      d y = d (xs.foldl (fun prev curr => if d curr < d prev then curr else prev) x) →
      xs.foldl (fun prev curr => if d curr < d prev then curr else prev) x ≤ y := by
  intro xs
  induction xs with
  | nil =>
    intro x _ y hy _
    rcases List.mem_cons.mp hy with h | h
    · subst h; exact le_refl y
    · exact absurd h (List.not_mem_nil y)
  | cons z zs ih =>
    intro x hs y hy hdy
    have hxz : x ≤ z := (List.sorted_cons.mp hs).1 z (List.mem_cons_self ..)
    have hxall : ∀ b ∈ zs, x ≤ b := fun b hb =>
      (List.sorted_cons.mp hs).1 b (List.mem_cons_of_mem _ hb)
    have hzall : ∀ b ∈ zs, z ≤ b := fun b hb =>
      (List.sorted_cons.mp (List.sorted_cons.mp hs).2).1 b hb
    have hstail : List.Sorted (· ≤ ·) zs :=
      (List.sorted_cons.mp (List.sorted_cons.mp hs).2).2
    have hsx : List.Sorted (· ≤ ·) (x :: zs) :=
      List.sorted_cons.mpr ⟨hxall, hstail⟩
    have hsz : List.Sorted (· ≤ ·) (z :: zs) :=
      List.sorted_cons.mpr ⟨hzall, hstail⟩
    rw [List.foldl_cons] at hdy ⊢
    rcases List.mem_cons.mp hy with h1 | h1
    · by_cases h : d z < d x
      · rw [if_pos h] at hdy ⊢
        exfalso
        have hle := foldMin_le d z zs z (List.mem_cons_self ..)
        have hdx : d x = d (zs.foldl (fun prev curr => if d curr < d prev then curr else prev) z) := by
          rw [← h1]; exact hdy
        exact absurd (lt_of_le_of_lt hle (hdx ▸ h)) (lt_irrefl _)
      · rw [if_neg h] at hdy ⊢
        refine ih x hsx y ?_ hdy
        rw [h1]
        exact List.mem_cons_self ..
    · rcases List.mem_cons.mp h1 with h2 | h2
      · by_cases h : d z < d x
        · rw [if_pos h] at hdy ⊢
          refine ih z hsz y ?_ hdy
          rw [h2]
          exact List.mem_cons_self ..
        · rw [if_neg h] at hdy ⊢
          rcases foldMin_first d x zs with h3 | ⟨_, h4⟩
          · rw [h3, h2]
            exact hxz
          · exfalso
            have hdz : d z =
                d (zs.foldl (fun prev curr => if d curr < d prev then curr else prev) x) := by
              rw [← h2]; exact hdy
            have hxlez : d x ≤ d z := not_lt.mp h
            exact absurd (lt_of_lt_of_le h4 (le_trans hxlez (le_of_eq hdz))) (lt_irrefl _)
      · by_cases h : d z < d x
        · rw [if_pos h] at hdy ⊢
          exact ih z hsz y (List.mem_cons_of_mem _ h2) hdy
        · rw [if_neg h] at hdy ⊢
          exact ih x hsx y (List.mem_cons_of_mem _ h2) hdy

theorem closestTo_num (q : ℚ) (x : Int) (xs : List Int) :
    closestTo (.num q) x xs =
      xs.foldl (fun prev curr : Int =>
        if |(curr : ℚ) - q| < |(prev : ℚ) - q| then curr else prev) x := by
  unfold closestTo
  have hf : (fun prev curr : Int =>
        if jsLt (jsDist curr (.num q)) (jsDist prev (.num q)) then curr else prev) =
      (fun prev curr : Int => if |(curr : ℚ) - q| < |(prev : ℚ) - q| then curr else prev) := by
    funext prev curr
    by_cases h : |(curr : ℚ) - q| < |(prev : ℚ) - q|
    · simp [jsLt, jsDist, h]
    · simp [jsLt, jsDist, h]
  rw [hf]

theorem closestTo_nan (x : Int) (xs : List Int) : closestTo .nan x xs = x := by
  unfold closestTo
  induction xs generalizing x with
  | nil => rfl
  | cons y ys ih =>
    rw [List.foldl_cons]
    have hstep : (if jsLt (jsDist y .nan) (jsDist x .nan) then y else x) = x := rfl
    rw [hstep]
    exact ih x

theorem changeMatches_nan (ch : Change) : changeMatches .nan ch = false := by
  cases ch <;> rfl

theorem changeMatches_num_iff (q : ℚ) (ch : Change) :
    changeMatches (.num q) ch = true ↔
      ∃ ln : Int, changeLine? ch = some ln ∧ (ln : ℚ) = q := by
  cases ch with
  | add ln => simp [changeMatches, changeLine?, jsNumEq, beq_iff_eq]
  | del ln => simp [changeMatches, changeLine?]
  | normal l1 l2 => simp [changeMatches, changeLine?, jsNumEq, beq_iff_eq]

theorem createComment_singleton (file : File) (chunk : Chunk) (r : AIResponseItem) (p : String)
    (hto : file.«to» = some p) (hp : p ≠ "") :
    createComment file chunk [r] =
      match chunk.changes.findSome?
          (fun ch => if changeMatches (jsToNumber r.lineNumber) ch then changeLine? ch else none) with
      | some ln =>
        [{ body := r.reviewComment, path := p, line := ln,
           severity := r.severity.getD .warning }]
      | none =>
        match sortedDiffLines chunk with
        | [] => []
        | x :: xs =>
          [{ body := "[Original comment was for line " ++ jsRender (jsToNumber r.lineNumber) ++
               "]\n" ++ r.reviewComment,
             path := p, line := closestTo (jsToNumber r.lineNumber) x xs,
             severity := r.severity.getD .warning }] := by
  have hfalsy : jsStrFalsy (some p) = false := beq_eq_false_iff_ne.mpr hp
  unfold createComment
  rw [List.flatMap_cons, List.flatMap_nil, List.append_nil, hto]
  rw [hfalsy]
  simp only [Bool.false_eq_true, if_false, Option.getD_some]

theorem sortedDiffLines_perm (chunk : Chunk) : (sortedDiffLines chunk).Perm (diffLines chunk) :=
  List.perm_insertionSort _ _

theorem sortedDiffLines_sorted (chunk : Chunk) : List.Sorted (· ≤ ·) (sortedDiffLines chunk) :=
  List.sorted_insertionSort _ _

theorem mem_sortedDiffLines (chunk : Chunk) (t : Int) :
    t ∈ sortedDiffLines chunk ↔ t ∈ diffLines chunk :=
  List.mem_insertionSort _

/-! ## C5 — nearest-line mapping -/

/-- C5: for a finding whose reported line number parses to `q`, `createComment`
keeps the reported line when it is among the addition/context lines of the
hunk; otherwise, when that line set is non-empty, it anchors to the member
with the smallest absolute distance to `q`, ties broken in favor of the
smaller line number; and when the set is empty the finding is dropped. -/
theorem c5_line_mapper (file : File) (chunk : Chunk) (r : AIResponseItem) (p : String) (q : ℚ)
    (hto : file.«to» = some p) (hp : p ≠ "")
    (hq : jsToNumber r.lineNumber = .num q) :
    ((∃ ln ∈ diffLines chunk, (ln : ℚ) = q) →
      ∃ c, createComment file chunk [r] = [c] ∧ (c.line : ℚ) = q ∧
        c.body = r.reviewComment ∧ c.path = p) ∧
    ((¬ ∃ ln ∈ diffLines chunk, (ln : ℚ) = q) → diffLines chunk ≠ [] →
      ∃ c, createComment file chunk [r] = [c] ∧ c.line ∈ diffLines chunk ∧
        c.body = "[Original comment was for line " ++ jsRender (.num q) ++ "]\n" ++
          r.reviewComment ∧
        c.path = p ∧
        (∀ t ∈ diffLines chunk, |(c.line : ℚ) - q| ≤ |(t : ℚ) - q|) ∧
        (∀ t ∈ diffLines chunk, |(t : ℚ) - q| = |(c.line : ℚ) - q| → c.line ≤ t)) ∧
    (diffLines chunk = [] → createComment file chunk [r] = []) := by
  have hcc := createComment_singleton file chunk r p hto hp
  rw [hq] at hcc
  refine ⟨?_, ?_, ?_⟩
  · rintro ⟨ln, hln, hlnq⟩
    rcases List.mem_filterMap.mp hln with ⟨ch, hch, hchline⟩
    cases hfs : chunk.changes.findSome?
        (fun ch => if changeMatches (.num q) ch then changeLine? ch else none) with
    | none =>
      exfalso
      have hnone := List.findSome?_eq_none_iff.mp hfs ch hch
      rw [if_pos ((changeMatches_num_iff q ch).mpr ⟨ln, hchline, hlnq⟩)] at hnone
      rw [hchline] at hnone
      exact Option.some_ne_none ln hnone
    | some ln0 =>
      rw [hfs] at hcc
      refine ⟨_, hcc, ?_, rfl, rfl⟩
      rcases List.exists_of_findSome?_eq_some hfs with ⟨ch', hch', hgch'⟩
      by_cases hm : changeMatches (.num q) ch' = true
      · rw [if_pos hm] at hgch'
        rcases (changeMatches_num_iff q ch').mp hm with ⟨ln', hln', hln'q⟩
        rw [hln'] at hgch'
        rw [← Option.some.inj hgch']
        exact hln'q
      · rw [if_neg hm] at hgch'
        simp at hgch' 
  · intro hnot hne
    have hfs : chunk.changes.findSome?
        (fun ch => if changeMatches (.num q) ch then changeLine? ch else none) = none := by
      rw [List.findSome?_eq_none_iff]
      intro ch hch
      by_cases hm : changeMatches (.num q) ch = true
      · exfalso
        rcases (changeMatches_num_iff q ch).mp hm with ⟨ln', hln', hln'q⟩
        exact hnot ⟨ln', List.mem_filterMap.mpr ⟨ch, hch, hln'⟩, hln'q⟩
      · rw [if_neg hm]
    rw [hfs] at hcc
    cases hsd : sortedDiffLines chunk with
    | nil =>
      exfalso
      have hperm := sortedDiffLines_perm chunk
      rw [hsd] at hperm
      exact hne (List.perm_nil.mp hperm.symm)
    | cons x xs =>
      rw [hsd] at hcc
      have hsorted : List.Sorted (· ≤ ·) (x :: xs) := by
        have := sortedDiffLines_sorted chunk
        rwa [hsd] at this
      have hmemiff : ∀ t : Int, t ∈ x :: xs ↔ t ∈ diffLines chunk := by
        intro t
        rw [← hsd]
        exact mem_sortedDiffLines chunk t
      refine ⟨_, hcc, ?_, rfl, rfl, ?_, ?_⟩
      · show closestTo (.num q) x xs ∈ diffLines chunk
        rw [closestTo_num]
        exact (hmemiff _).mp (foldMin_mem (fun t : Int => |(t : ℚ) - q|) x xs)
      · intro t ht
        show |(closestTo (.num q) x xs : ℚ) - q| ≤ _
        rw [closestTo_num]
        exact foldMin_le (fun t : Int => |(t : ℚ) - q|) x xs t ((hmemiff t).mpr ht)
      · intro t ht hd
        show closestTo (.num q) x xs ≤ t
        rw [closestTo_num] at hd ⊢
        exact foldMin_tie (fun t : Int => |(t : ℚ) - q|) xs x hsorted t ((hmemiff t).mpr ht) hd
  · intro hempty
    have hfs : chunk.changes.findSome?
        (fun ch => if changeMatches (.num q) ch then changeLine? ch else none) = none := by
      rw [List.findSome?_eq_none_iff]
      intro ch hch
      by_cases hm : changeMatches (.num q) ch = true
      · exfalso
        rcases (changeMatches_num_iff q ch).mp hm with ⟨ln', hln', _⟩
        have : ln' ∈ diffLines chunk := List.mem_filterMap.mpr ⟨ch, hch, hln'⟩
        rw [hempty] at this
        exact absurd this (List.not_mem_nil ln')
      · rw [if_neg hm]
    have hsd : sortedDiffLines chunk = [] := by
      unfold sortedDiffLines
      rw [hempty]
      rfl
    rw [hfs, hsd] at hcc
    exact hcc

/-- Witness for `c5_line_mapper`: the claim's own instance — line set
`{2, 5, 9}` and reported line `7` anchors at `5`. -/
theorem c5_line_mapper_witness :
    ∃ c, createComment {«to» := some "f.py"} {changes := [.add 2, .add 5, .add 9]}
        [{lineNumber := "7", reviewComment := "m"}] = [c] ∧
      c.line ∈ diffLines {changes := [.add 2, .add 5, .add 9]} ∧
      c.body = "[Original comment was for line " ++ jsRender (.num 7) ++ "]\n" ++ "m" ∧
      c.path = "f.py" ∧
      (∀ t ∈ diffLines {changes := [.add 2, .add 5, .add 9]},
        |(c.line : ℚ) - 7| ≤ |(t : ℚ) - 7|) ∧
      (∀ t ∈ diffLines {changes := [.add 2, .add 5, .add 9]},
        |(t : ℚ) - 7| = |(c.line : ℚ) - 7| → c.line ≤ t) :=
  (c5_line_mapper {«to» := some "f.py"} {changes := [.add 2, .add 5, .add 9]}
      {lineNumber := "7", reviewComment := "m"} "f.py" 7 rfl (by decide) (by decide)).2.1
    (by decide) (by decide)

/-! ## C10 — unparseable reported line numbers -/

/-- C10: a finding whose `lineNumber` does not parse (`Number` gives `NaN`)
is neither dropped nor an error when the hunk has usable lines: the strict
`<` in the reduce never fires on `NaN` distances, so the comment anchors to
the first (smallest) sorted line, and the body is prefixed with the
remapping note, which renders the parsed value as `NaN`. -/
theorem c10_nan_line (file : File) (chunk : Chunk) (r : AIResponseItem) (p : String)
    (hto : file.«to» = some p) (hp : p ≠ "")
    (hnan : jsToNumber r.lineNumber = .nan) (hne : diffLines chunk ≠ []) :
    ∃ c ln rest, sortedDiffLines chunk = ln :: rest ∧
      createComment file chunk [r] = [c] ∧ c.line = ln ∧
      (∀ t ∈ diffLines chunk, ln ≤ t) ∧
      c.body = "[Original comment was for line NaN]\n" ++ r.reviewComment ∧
      c.path = p ∧ c.severity = r.severity.getD .warning := by
  have hcc := createComment_singleton file chunk r p hto hp
  rw [hnan] at hcc
  have hfs : chunk.changes.findSome?
      (fun ch => if changeMatches .nan ch then changeLine? ch else none) = none := by
    rw [List.findSome?_eq_none_iff]
    intro ch _
    rw [changeMatches_nan ch]
    simp
  rw [hfs] at hcc
  cases hsd : sortedDiffLines chunk with
  | nil =>
    exfalso
    have hperm := sortedDiffLines_perm chunk
    rw [hsd] at hperm
    exact hne (List.perm_nil.mp hperm.symm)
  | cons x xs =>
    rw [hsd] at hcc
    have hsorted : List.Sorted (· ≤ ·) (x :: xs) := by
      have := sortedDiffLines_sorted chunk
      rwa [hsd] at this
    have hmemiff : ∀ t : Int, t ∈ x :: xs ↔ t ∈ diffLines chunk := by
      intro t
      rw [← hsd]
      exact mem_sortedDiffLines chunk t
    refine ⟨_, x, xs, rfl, hcc, closestTo_nan x xs, ?_, ?_, rfl, rfl⟩
    · intro t ht
      rcases List.mem_cons.mp ((hmemiff t).mpr ht) with h | h
      · exact le_of_eq h.symm
      · exact (List.sorted_cons.mp hsorted).1 t h
    · rfl

/-- Witness for `c10_nan_line`. -/
theorem c10_nan_line_witness :
    ∃ c ln rest, sortedDiffLines {changes := [.add 9, .add 4]} = ln :: rest ∧
      createComment {«to» := some "f.py"} {changes := [.add 9, .add 4]}
        [{lineNumber := "abc", reviewComment := "m"}] = [c] ∧ c.line = ln ∧
      (∀ t ∈ diffLines {changes := [.add 9, .add 4]}, ln ≤ t) ∧
      c.body = "[Original comment was for line NaN]\n" ++ "m" ∧
      c.path = "f.py" ∧
      c.severity = (none : Option Severity).getD .warning :=
  c10_nan_line {«to» := some "f.py"} {changes := [.add 9, .add 4]}
    {lineNumber := "abc", reviewComment := "m"} "f.py" rfl (by decide) (by decide) (by decide)

/-! ## Helper lemmas about the body normalization and the tracking marker -/

theorem dropToClose_length : ∀ {l r : List Char}, dropToClose l = some r → r.length < l.length := by
  intro l
  induction l with
  | nil => intro r h; exact absurd h (by simp [dropToClose])
  | cons c rest ih =>
    intro r h
    unfold dropToClose at h
    by_cases hc : c = ']'
    · rw [if_pos hc] at h
      cases h
      simp
    · rw [if_neg hc] at h
      by_cases ht : isLineTerminator c = true
      · rw [if_pos ht] at h
        exact absurd h (by simp)
      · rw [if_neg ht] at h
        exact Nat.lt_trans (ih h) (Nat.lt_succ_self _)

theorem stripBracketsAux_congr : ∀ (f₁ : Nat) {f₂ : Nat} {l : List Char},
    l.length ≤ f₁ → l.length ≤ f₂ → stripBracketsAux f₁ l = stripBracketsAux f₂ l := by
  intro f₁
  induction f₁ with
  | zero =>
    intro f₂ l h1 _
    have : l = [] := List.length_eq_zero.mp (Nat.le_zero.mp h1)
    subst this
    cases f₂ <;> rfl
  | succ f ih =>
    intro f₂ l h1 h2
    cases l with
    | nil => cases f₂ <;> rfl
    | cons c rest =>
      cases f₂ with
      | zero => exact absurd h2 (by simp)
      | succ m =>
        unfold stripBracketsAux
        by_cases hc : c = '['
        · rw [if_pos hc, if_pos hc]
          cases hdc : dropToClose rest with
          | none => exact congrArg (c :: ·) (ih (Nat.le_of_succ_le_succ h1) (Nat.le_of_succ_le_succ h2))
          | some rest2 =>
            have hlen := dropToClose_length hdc
            exact ih
              (Nat.le_trans (Nat.le_of_lt hlen) (Nat.le_of_succ_le_succ h1))
              (Nat.le_trans (Nat.le_of_lt hlen) (Nat.le_of_succ_le_succ h2))
        · rw [if_neg hc, if_neg hc]
          exact congrArg (c :: ·) (ih (Nat.le_of_succ_le_succ h1) (Nat.le_of_succ_le_succ h2))

theorem stripBracketsAux_append : ∀ (xs : List Char) (fuel : Nat) (ys : List Char),
    xs.length + ys.length ≤ fuel → '[' ∉ xs →
    stripBracketsAux fuel (xs ++ ys) = xs ++ stripBracketsAux fuel ys := by
  intro xs
  induction xs with
  | nil => intro fuel ys _ _; rfl
  | cons c xs' ih =>
    intro fuel ys hlen hmem
    have hc : c ≠ '[' := fun h => hmem (h ▸ List.mem_cons_self ..)
    cases fuel with
    | zero => simp at hlen
    | succ f =>
      have hlen' : xs'.length + ys.length ≤ f := by
        simp at hlen
        omega
      have hstep : stripBracketsAux (f + 1) (c :: (xs' ++ ys)) =
          c :: stripBracketsAux f (xs' ++ ys) := by
        simp only [stripBracketsAux]
        rw [if_neg hc]
      have hcongr : stripBracketsAux f ys = stripBracketsAux (f + 1) ys :=
        stripBracketsAux_congr f (by omega) (by omega)
      rw [List.cons_append, hstep, ih f ys hlen' (fun h => hmem (List.mem_cons_of_mem _ h)),
        hcongr, List.cons_append]

theorem stripBrackets_append {xs : List Char} (ys : List Char) (hxs : '[' ∉ xs) :
    stripBrackets (xs ++ ys) = xs ++ stripBrackets ys := by
  unfold stripBrackets
  rw [List.length_append]
  rw [stripBracketsAux_append xs (xs.length + ys.length) ys (le_refl _) hxs]
  rw [stripBracketsAux_congr (xs.length + ys.length) (by omega) (le_refl ys.length)]

theorem dropWhile_append_singleton {p : Char → Bool} {c : Char} (hc : p c = false) :
    ∀ xs : List Char, ∃ zs, (xs ++ [c]).dropWhile p = zs ++ [c] := by
  intro xs
  induction xs with
  | nil =>
    refine ⟨[], ?_⟩
    rw [List.nil_append, List.dropWhile_cons, hc]
    simp
  | cons x xs' ih =>
    rw [List.cons_append, List.dropWhile_cons]
    by_cases hx : p x = true
    · rw [if_pos hx]
      exact ih
    · rw [if_neg hx]
      exact ⟨x :: xs', rfl⟩

theorem trimChars_head {rest : List Char} {c : Char} (hc : isJsSpace c = false) :
    ∃ zs, trimChars (c :: rest) = c :: zs := by
  unfold trimChars
  rw [List.dropWhile_cons, hc]
  simp only [Bool.false_eq_true, if_false]
  rw [List.reverse_cons]
  rcases dropWhile_append_singleton hc rest.reverse with ⟨zs, hzs⟩
  rw [hzs, List.reverse_append]
  exact ⟨zs.reverse, rfl⟩

theorem getD_mem_or (l : List Char) (n : Nat) (d : Char) :
    l.getD n d ∈ l ∨ l.getD n d = d := by
  induction l generalizing n with
  | nil => right; exact List.getD_nil
  | cons a l ih =>
    cases n with
    | zero => left; rw [List.getD_cons_zero]; exact List.mem_cons_self ..
    | succ m =>
      rw [List.getD_cons_succ]
      rcases ih m with h | h
      · left; exact List.mem_cons_of_mem _ h
      · right; exact h

theorem b64char_ne_lbracket (n : Nat) : b64char n ≠ '[' := by
  show base64Table.getD n 'A' ≠ '['
  rcases getD_mem_or base64Table n 'A' with h | h
  · intro he
    rw [he] at h
    revert h
    decide
  · rw [h]
    decide

theorem base64Chunks_ne_lbracket : ∀ bs : List Nat, '[' ∉ base64Chunks bs := by
  intro bs
  induction bs using base64Chunks.induct with
  | case1 => exact List.not_mem_nil _
  | case2 a =>
    intro hmem
    simp only [base64Chunks, List.mem_cons, List.not_mem_nil, or_false] at hmem
    rcases hmem with h | h | h | h
    · exact b64char_ne_lbracket _ h.symm
    · exact b64char_ne_lbracket _ h.symm
    · exact absurd h (by decide)
    · exact absurd h (by decide)
  | case3 a b =>
    intro hmem
    simp only [base64Chunks, List.mem_cons, List.not_mem_nil, or_false] at hmem
    rcases hmem with h | h | h | h
    · exact b64char_ne_lbracket _ h.symm
    · exact b64char_ne_lbracket _ h.symm
    · exact b64char_ne_lbracket _ h.symm
    · exact absurd h (by decide)
  | case4 a b c rest ih =>
    intro hmem
    simp only [base64Chunks, List.mem_cons] at hmem
    rcases hmem with h | h | h | h | h
    · exact b64char_ne_lbracket _ h.symm
    · exact b64char_ne_lbracket _ h.symm
    · exact b64char_ne_lbracket _ h.symm
    · exact b64char_ne_lbracket _ h.symm
    · exact ih h

theorem computeId_ne_lbracket (c : ReviewComment) : '[' ∉ (computeId c).data :=
  base64Chunks_ne_lbracket _

theorem trackingMarker_data (id sha : String) :
    (trackingMarker id sha).data =
      "<!--review-id:".data ++ (id.data ++ (",commit:".data ++ (sha.data ++ "-->\n".data))) := by
  unfold trackingMarker
  rw [String.data_append, String.data_append, String.data_append, String.data_append]
  simp [List.append_assoc]

theorem trackingMarker_ne_lbracket {id sha : String} (hid : '[' ∉ id.data)
    (hsha : '[' ∉ sha.data) : '[' ∉ (trackingMarker id sha).data := by
  rw [trackingMarker_data]
  intro hmem
  rcases List.mem_append.mp hmem with h | h
  · revert h; decide
  · rcases List.mem_append.mp h with h | h
    · exact hid h
    · rcases List.mem_append.mp h with h | h
      · revert h; decide
      · rcases List.mem_append.mp h with h | h
        · exact hsha h
        · revert h; decide

theorem stripTrim_marker_head {id sha : String} (B : String) (hid : '[' ∉ id.data)
    (hsha : '[' ∉ sha.data) :
    ∃ zs, (stripTrim (trackingMarker id sha ++ B)).data = '<' :: zs := by
  show ∃ zs, trimChars (stripBrackets (trackingMarker id sha ++ B).data) = '<' :: zs
  rw [String.data_append]
  rw [stripBrackets_append B.data (trackingMarker_ne_lbracket hid hsha)]
  have hm : (trackingMarker id sha).data ++ stripBrackets B.data =
      '<' :: ("!--review-id:".data ++
        (id.data ++ (",commit:".data ++ (sha.data ++ "-->\n".data))) ++ stripBrackets B.data) := by
    rw [trackingMarker_data]
    rfl
  rw [hm]
  exact trimChars_head (by decide)

theorem matchesPrevious_of_marker_body {c : ReviewComment} {hr : HistoricalReview}
    {id sha B : String} (hid : '[' ∉ id.data) (hsha : '[' ∉ sha.data)
    (hbody : hr.comment.body = trackingMarker id sha ++ B)
    (hB : (stripTrim c.body).data.head? ≠ some '<') :
    matchesPrevious c hr = false := by
  have hne : stripTrim hr.comment.body ≠ stripTrim c.body := by
    intro he
    rcases stripTrim_marker_head B hid hsha with ⟨zs, hzs⟩
    rw [hbody] at he
    apply hB
    rw [← he, hzs]
    rfl
  unfold matchesPrevious
  rw [beq_eq_false_iff_ne.mpr hne]
  simp

/-! ## C6 — running the reconciler on its own output -/

set_option maxRecDepth 32768 in
/-- C6 counterexample: re-running the reconciler with the same single-issue
current set, feeding the first run's output back as the historical records,
does not classify the issue as persistent — no advisory is appended and no
status is assigned — because the first-run body carries the embedded
tracking marker, which the `\[.*?\]` stripping does not remove, so the exact
body match fails. -/
theorem c6_counterexample :
    ¬ ∀ x ∈ compareWithPreviousReviews
        [{body := "unused import", path := "a.py", line := 10, severity := .warning}]
        ((compareWithPreviousReviews
            [{body := "unused import", path := "a.py", line := 10, severity := .warning}]
            [] "s").map (historify "s"))
        "s",
      strContains x.body advisoryText = true ∧ x.status ≠ none := by
  decide

/-- C6 (amended): with the first run started from an empty history, feeding
its output back as the historical records and re-running with the same
current set reproduces the first run's output exactly: no issue is
recognized as persistent (the embedded tracking marker defeats the stripped
exact-body match, so no advisory is appended and statuses stay as they
were), and no issue is emitted as resolved (every identifier is recomputed
identically).  The hypotheses say the commit id contains no `[` and no
current body's stripped form starts with `<` — both true of every input the
pipeline produces. -/
theorem c6_amended (cur : List ReviewComment) (sha : String)
    (hsha : '[' ∉ sha.data)
    (hB : ∀ c ∈ cur, (stripTrim c.body).data.head? ≠ some '<') :
    compareWithPreviousReviews cur
        ((compareWithPreviousReviews cur [] sha).map (historify sha)) sha =
      compareWithPreviousReviews cur [] sha ∧
    compareWithPreviousReviews cur [] sha =
      cur.map (fun c =>
        { c with id := some (computeId c),
                 body := trackingMarker (computeId c) sha ++ c.body }) := by
  have hout1 : compareWithPreviousReviews cur [] sha =
      cur.map (fun c =>
        { c with id := some (computeId c),
                 body := trackingMarker (computeId c) sha ++ c.body }) := by
    rw [compareWithPreviousReviews_eq, List.filter_nil, List.map_nil, List.append_nil]
    exact List.map_congr_left (fun c _ => rfl)
  refine ⟨?_, hout1⟩
  set hist2 := (compareWithPreviousReviews cur [] sha).map (historify sha) with hhist2
  have hist2_body : ∀ hr ∈ hist2, ∃ c' ∈ cur,
      hr.comment.body = trackingMarker (computeId c') sha ++ c'.body ∧
      hr.comment.id = computeId c' := by
    intro hr hhr
    rw [hhist2, hout1] at hhr
    rcases List.mem_map.mp hhr with ⟨c1, hc1, rfl⟩
    rcases List.mem_map.mp hc1 with ⟨c', hc', rfl⟩
    exact ⟨c', hc', rfl, rfl⟩
  have hfind : ∀ c ∈ cur, hist2.find? (matchesPrevious c) = none := by
    intro c hc
    rw [List.find?_eq_none]
    intro hr hhr
    rcases hist2_body hr hhr with ⟨c', _, hbody, _⟩
    rw [matchesPrevious_of_marker_body (computeId_ne_lbracket c') hsha hbody (hB c hc)]
    simp
  have hproc : ∀ c ∈ cur, processNewComment hist2 sha c = processNewComment [] sha c := by
    intro c hc
    unfold processNewComment
    rw [hfind c hc]
    rfl
  rw [compareWithPreviousReviews_eq cur hist2 sha]
  have hmap : cur.map (processNewComment hist2 sha) = cur.map (processNewComment [] sha) :=
    List.map_congr_left hproc
  rw [hmap]
  have hres : hist2.filter
      (fun hr => !((cur.map (processNewComment [] sha)).any
        (fun pc => pc.id == some hr.comment.id))) = [] := by
    rw [List.filter_eq_nil_iff]
    intro hr hhr
    rcases hist2_body hr hhr with ⟨c', hc', _, hid⟩
    have hany : (cur.map (processNewComment [] sha)).any
        (fun pc => pc.id == some hr.comment.id) = true := by
      rw [List.any_eq_true]
      refine ⟨processNewComment [] sha c', List.mem_map.mpr ⟨c', hc', rfl⟩, ?_⟩
      rw [processNewComment_id, hid]
      exact beq_self_eq_true _
    rw [hany]
    simp
  rw [hres, List.map_nil, List.append_nil, hout1]
  exact List.map_congr_left (fun c _ => rfl)

/-- Witness for `c6_amended`. -/
theorem c6_amended_witness :
    compareWithPreviousReviews
        [{body := "unused import", path := "a.py", line := 10, severity := .warning}]
        ((compareWithPreviousReviews
            [{body := "unused import", path := "a.py", line := 10, severity := .warning}]
            [] "s").map (historify "s")) "s" =
      compareWithPreviousReviews
        [{body := "unused import", path := "a.py", line := 10, severity := .warning}] [] "s" ∧
    compareWithPreviousReviews
        [{body := "unused import", path := "a.py", line := 10, severity := .warning}] [] "s" =
      [({body := "unused import", path := "a.py", line := 10, severity := .warning} :
          ReviewComment)].map (fun c =>
        { c with id := some (computeId c),
                 body := trackingMarker (computeId c) "s" ++ c.body }) :=
  c6_amended [{body := "unused import", path := "a.py", line := 10, severity := .warning}] "s"
    (by decide) (by decide)

/-! ## C7 — severity ordering of the pass/fail verdict -/

/-- C7: the verdict checks the tiers in the fixed order critical, warning,
suggestion; a tier only fails when its threshold is non-negative (so `-1`
means unbounded) and its count of non-resolved issues exceeds it, and the
first failing tier provides the reason.  At counts `critical = 1`,
`warning = 20` with thresholds `critical = 0`, `warning = -1` the verdict is
the critical failure message, which names critical and not warning. -/
theorem c7_policy_gate (comments : List ReviewComment) (maxC maxW maxS : Int)
    (foq : Bool) (qc : Nat) :
    (maxC ≥ 0 → (countNonResolved comments .critical : Int) > maxC →
      policyVerdict comments maxC maxW maxS foq qc =
        some (criticalFailureMessage (countNonResolved comments .critical) maxC)) ∧
    (¬ (maxC ≥ 0 ∧ (countNonResolved comments .critical : Int) > maxC) →
      maxW ≥ 0 → (countNonResolved comments .warning : Int) > maxW →
      policyVerdict comments maxC maxW maxS foq qc =
        some (warningFailureMessage (countNonResolved comments .warning) maxW)) ∧
    (¬ (maxC ≥ 0 ∧ (countNonResolved comments .critical : Int) > maxC) →
      ¬ (maxW ≥ 0 ∧ (countNonResolved comments .warning : Int) > maxW) →
      maxS ≥ 0 → (countNonResolved comments .suggestion : Int) > maxS →
      policyVerdict comments maxC maxW maxS foq qc =
        some (suggestionFailureMessage (countNonResolved comments .suggestion) maxS)) ∧
    (¬ (maxC ≥ 0 ∧ (countNonResolved comments .critical : Int) > maxC) →
      ¬ (maxW ≥ 0 ∧ (countNonResolved comments .warning : Int) > maxW) →
      ¬ (maxS ≥ 0 ∧ (countNonResolved comments .suggestion : Int) > maxS) →
      ¬ (foq = true ∧ qc > 0) →
      policyVerdict comments maxC maxW maxS foq qc = none) ∧
    (policyVerdict
        ({body := "c", path := "p", line := 1, severity := .critical} ::
          List.replicate 20 {body := "w", path := "p", line := 1, severity := .warning})
        0 (-1) (-1) false 0 = some (criticalFailureMessage 1 0) ∧
      strContains (criticalFailureMessage 1 0) "critical" = true ∧
      strContains (criticalFailureMessage 1 0) "warning" = false ∧
      countNonResolved
        ({body := "c", path := "p", line := 1, severity := .critical} ::
          List.replicate 20 {body := "w", path := "p", line := 1, severity := .warning})
        .warning = 20) := by
  refine ⟨?_, ?_, ?_, ?_, by decide⟩
  · intro h1 h2
    unfold policyVerdict
    rw [if_pos ⟨h1, h2⟩]
  · intro hn h1 h2
    unfold policyVerdict
    rw [if_neg hn, if_pos ⟨h1, h2⟩]
  · intro hn1 hn2 h1 h2
    unfold policyVerdict
    rw [if_neg hn1, if_neg hn2, if_pos ⟨h1, h2⟩]
  · intro hn1 hn2 hn3 hn4
    unfold policyVerdict
    rw [if_neg hn1, if_neg hn2, if_neg hn3, if_neg hn4]

/-- Witness for `c7_policy_gate` at the claim's own instance. -/
theorem c7_policy_gate_witness :
    policyVerdict
        ({body := "c", path := "p", line := 1, severity := .critical} ::
          List.replicate 20 {body := "w", path := "p", line := 1, severity := .warning})
        0 (-1) (-1) false 0 =
      some (criticalFailureMessage
        (countNonResolved
          ({body := "c", path := "p", line := 1, severity := .critical} ::
            List.replicate 20 {body := "w", path := "p", line := 1, severity := .warning})
          .critical) 0) :=
  (c7_policy_gate
      ({body := "c", path := "p", line := 1, severity := .critical} ::
        List.replicate 20 {body := "w", path := "p", line := 1, severity := .warning})
      0 (-1) (-1) false 0).1 (by decide) (by decide)

/-! ## C8 — comment-mode filtering -/

set_option maxRecDepth 16384 in
/-- C8: mode `all` keeps every reconciled issue, mode `new` keeps exactly the
issues whose id matches no historical record's id, mode `unresolved` keeps
exactly the issues whose status is not `resolved`; on a reconciled run with
one first-appearance issue, one persistent issue (advisory appended, id
matching a historical record) and one resolved issue, mode `new` keeps
exactly the first, mode `unresolved` the first two, and mode `all` all
three. -/
theorem c8_mode_filtering (comments : List ReviewComment) (hist : List HistoricalReview) :
    filterByCommentMode "all" comments hist = comments ∧
    (∀ c, c ∈ filterByCommentMode "new" comments hist ↔
      c ∈ comments ∧ ¬ ∃ hr ∈ hist, c.id = some hr.comment.id) ∧
    (∀ c, c ∈ filterByCommentMode "unresolved" comments hist ↔
      c ∈ comments ∧ c.status ≠ some Status.resolved) ∧
    ((compareWithPreviousReviews
        [{body := "fresh", path := "c.py", line := 3, severity := .warning},
         {body := "dup", path := "a.py", line := 1, severity := .warning}]
        [{ id := "X", commitSha := "c0", timestamp := "t",
           comment := { body := "dup", path := "a.py", line := 1, severity := .warning,
                        id := computeId {body := "dup", path := "a.py", line := 1,
                                         severity := .warning},
                        status := .active } },
         { id := "Y", commitSha := "c0", timestamp := "t",
           comment := { body := "gone", path := "b.py", line := 2, severity := .critical,
                        id := "Y", status := .active } }]
        "s").map (fun c => (c.status, strContains c.body advisoryText)) =
        [(none, false), (none, true), (some .resolved, false)] ∧
      filterByCommentMode "new"
        (compareWithPreviousReviews
          [{body := "fresh", path := "c.py", line := 3, severity := .warning},
           {body := "dup", path := "a.py", line := 1, severity := .warning}]
          [{ id := "X", commitSha := "c0", timestamp := "t",
             comment := { body := "dup", path := "a.py", line := 1, severity := .warning,
                          id := computeId {body := "dup", path := "a.py", line := 1,
                                           severity := .warning},
                          status := .active } },
           { id := "Y", commitSha := "c0", timestamp := "t",
             comment := { body := "gone", path := "b.py", line := 2, severity := .critical,
                          id := "Y", status := .active } }]
          "s")
        [{ id := "X", commitSha := "c0", timestamp := "t",
           comment := { body := "dup", path := "a.py", line := 1, severity := .warning,
                        id := computeId {body := "dup", path := "a.py", line := 1,
                                         severity := .warning},
                        status := .active } },
         { id := "Y", commitSha := "c0", timestamp := "t",
           comment := { body := "gone", path := "b.py", line := 2, severity := .critical,
                        id := "Y", status := .active } }] =
        (compareWithPreviousReviews
          [{body := "fresh", path := "c.py", line := 3, severity := .warning},
           {body := "dup", path := "a.py", line := 1, severity := .warning}]
          [{ id := "X", commitSha := "c0", timestamp := "t",
             comment := { body := "dup", path := "a.py", line := 1, severity := .warning,
                          id := computeId {body := "dup", path := "a.py", line := 1,
                                           severity := .warning},
                          status := .active } },
           { id := "Y", commitSha := "c0", timestamp := "t",
             comment := { body := "gone", path := "b.py", line := 2, severity := .critical,
                          id := "Y", status := .active } }]
          "s").take 1 ∧
      filterByCommentMode "unresolved"
        (compareWithPreviousReviews
          [{body := "fresh", path := "c.py", line := 3, severity := .warning},
           {body := "dup", path := "a.py", line := 1, severity := .warning}]
          [{ id := "X", commitSha := "c0", timestamp := "t",
             comment := { body := "dup", path := "a.py", line := 1, severity := .warning,
                          id := computeId {body := "dup", path := "a.py", line := 1,
                                           severity := .warning},
                          status := .active } },
           { id := "Y", commitSha := "c0", timestamp := "t",
             comment := { body := "gone", path := "b.py", line := 2, severity := .critical,
                          id := "Y", status := .active } }]
          "s")
        [{ id := "X", commitSha := "c0", timestamp := "t",
           comment := { body := "dup", path := "a.py", line := 1, severity := .warning,
                        id := computeId {body := "dup", path := "a.py", line := 1,
                                         severity := .warning},
                        status := .active } },
         { id := "Y", commitSha := "c0", timestamp := "t",
           comment := { body := "gone", path := "b.py", line := 2, severity := .critical,
                        id := "Y", status := .active } }] =
        (compareWithPreviousReviews
          [{body := "fresh", path := "c.py", line := 3, severity := .warning},
           {body := "dup", path := "a.py", line := 1, severity := .warning}]
          [{ id := "X", commitSha := "c0", timestamp := "t",
             comment := { body := "dup", path := "a.py", line := 1, severity := .warning,
                          id := computeId {body := "dup", path := "a.py", line := 1,
                                           severity := .warning},
                          status := .active } },
           { id := "Y", commitSha := "c0", timestamp := "t",
             comment := { body := "gone", path := "b.py", line := 2, severity := .critical,
                          id := "Y", status := .active } }]
          "s").take 2) := by
  refine ⟨rfl, ?_, ?_, by decide⟩
  · intro c
    show c ∈ comments.filter
        (fun c => !(hist.any (fun hr => c.id == some hr.comment.id))) ↔ _
    rw [List.mem_filter]
    simp only [Bool.not_eq_true', List.any_eq_false, List.mem_filter, beq_eq_false_iff_ne]
    constructor
    · rintro ⟨hc, hall⟩
      exact ⟨hc, fun ⟨hr, hhr, he⟩ => hall hr hhr (beq_iff_eq.mpr he)⟩
    · rintro ⟨hc, hnone⟩
      exact ⟨hc, fun hr hhr he => hnone ⟨hr, hhr, beq_iff_eq.mp he⟩⟩
  · intro c
    show c ∈ comments.filter (fun c => !(c.status == some Status.resolved)) ↔ _
    rw [List.mem_filter]
    simp [Bool.not_eq_true', beq_eq_false_iff_ne]

/-- Witness for `c8_mode_filtering`. -/
theorem c8_mode_filtering_witness :
    filterByCommentMode "all"
        [({body := "b", path := "p", line := 1, severity := .warning} : ReviewComment)] [] =
      [({body := "b", path := "p", line := 1, severity := .warning} : ReviewComment)] :=
  (c8_mode_filtering [{body := "b", path := "p", line := 1, severity := .warning}] []).1

/-- Witness for `c9_amended`. -/
theorem c9_amended_witness :
    (compareWithPreviousReviews [{body := "b", path := "p", line := 1, severity := .warning}]
        [] "s").take 1 =
      inputStateAfter [{body := "b", path := "p", line := 1, severity := .warning}] [] "s" ∧
    ∀ c ∈ [({body := "b", path := "p", line := 1, severity := .warning} : ReviewComment)],
      processNewComment [] "s" c ∈
        inputStateAfter [{body := "b", path := "p", line := 1, severity := .warning}] [] "s" ∧
      (processNewComment [] "s" c).id = some (computeId c) ∧
      (∃ t, (processNewComment [] "s" c).body = trackingMarker (computeId c) "s" ++ t ∧
        (t = c.body ∨ t = c.body ++ advisoryText)) ∧
      (processNewComment [] "s" c).path = c.path ∧
      (processNewComment [] "s" c).line = c.line ∧
      (processNewComment [] "s" c).severity = c.severity ∧
      (processNewComment [] "s" c).status = c.status :=
  c9_amended [{body := "b", path := "p", line := 1, severity := .warning}] [] "s"

end PRBot
